import Mathlib

/-!
Verification of the location shadowing and reconciliation engine of
`src/sandbox/router/location.ts`.

The file embeds the decision logic of `createMicroLocation` (the
`commonHandle` reconciliation handler, the `assign`/`replace` methods built
by `createLocationMethod`, and the `href`/`pathname`/`search`/`hash`
property setters) and of `updateLocation` as pure Lean functions.

External collaborators that live outside this file's source
(`createURL`, `setMicroPathToURL`, `history.pushState`/`replaceState`,
`location.reload`, `dispatchPurePopStateEvent`, the raw
`location.assign`/`replace`/`href` primitives) are modelled as parameters
and as an explicit trace of side-effect events, in the order the source
performs them.
-/

/-- Result of resolving a value against a base URL, i.e. the fields of the
`URL` object produced by `createURL`. -/
structure Loc where
  origin : String
  pathname : String
  search : String
  hash : String
  href : String
  host : String
  hostname : String
  port : String
  protocol : String
  password : String
  deriving Repr, DecidableEq

/-- The `shadowLocation` record of `createMicroLocation`: the current
location information (href, pathname, search, hash) believed by the child
app. -/
structure ShadowLocation where
  href : String
  pathname : String
  search : String
  hash : String
  deriving Repr, DecidableEq

/-- The micro location facade: the shadow record plus the passthrough
fields written by `updateLocation`, and the app origin (`microLocation.origin`,
fixed when the URL object is created, read by `commonHandle`). -/
structure Facade where
  shadowLocation : ShadowLocation
  host : String
  hostname : String
  port : String
  protocol : String
  password : String
  origin : String
  deriving Repr, DecidableEq

/-- The value object returned by the path codec `setMicroPathToURL`. -/
structure MicroPathResult where
  fullPath : String
  attach2Hash : Bool
  deriving Repr, DecidableEq

/-- Observable side effects performed by the engine, in program order. -/
inductive Event where
  | pushState (fullPath : String)
  | replaceState (fullPath : String)
  | reload
  | dispatchPurePopStateEvent
  | rawLocationCall (methodName : String) (value : String)
  | rawHrefAssign (value : String)
  deriving Repr, DecidableEq

/-- The history method name passed to `commonHandle`. -/
inductive HistoryMethod where
  | pushState
  | replaceState
  deriving Repr, DecidableEq

/-- The dynamic call `rawWindow.history[methodName](null, '', fullPath)`. -/
def historyCall : HistoryMethod → String → Event
  | HistoryMethod.pushState, p => Event.pushState p
  | HistoryMethod.replaceState, p => Event.replaceState p

/-- The external collaborators closed over by `createMicroLocation`:
`createURL (value, url)` (resolution against the app url) and
`setMicroPathToURL (appName, targetLocation)` (the path codec with the app
name applied). -/
structure Env where
  createURL : String → Loc
  setMicroPathToURL : Loc → MicroPathResult

/-- Result of one `commonHandle` call: the (unchanged) facade, the value
returned to the caller (`none` models the `undefined` handled sentinel),
and the trace of side effects. -/
structure HandleResult where
  facade : Facade
  returned : Option String
  events : List Event
  deriving Repr, DecidableEq

/-- Result of a setter or method call: the (unchanged) facade and the trace
of side effects. -/
structure SetResult where
  facade : Facade
  events : List Event
  deriving Repr, DecidableEq

/-- The `commonHandle` handler for `href`, `assign`, `replace` of
`createMicroLocation`, lines 34-69 of the source. -/
def commonHandle (env : Env) (f : Facade) (value : String)
    (methodName : HistoryMethod) : HandleResult :=
  let targetLocation := env.createURL value
  if targetLocation.origin = f.origin then
    let setMicroPathResult := env.setMicroPathToURL targetLocation
    if targetLocation.pathname = f.shadowLocation.pathname ∧
        targetLocation.search = f.shadowLocation.search then
      let commitEvents :=
        if targetLocation.hash ≠ f.shadowLocation.hash then
          [historyCall methodName setMicroPathResult.fullPath]
        else []
      let tailEvents :=
        if targetLocation.hash ≠ "" then [Event.dispatchPurePopStateEvent]
        else [Event.reload]
      { facade := f, returned := none, events := commitEvents ++ tailEvents }
    else if setMicroPathResult.attach2Hash then
      { facade := f, returned := none,
        events := [historyCall methodName setMicroPathResult.fullPath, Event.reload] }
    else
      { facade := f, returned := some setMicroPathResult.fullPath, events := [] }
  else
    { facade := f, returned := some value, events := [] }

/-- The method factory `createLocationMethod` (lines 71-76): chooses
`pushState` for `assign` and `replaceState` otherwise, and performs the raw
location call only when `commonHandle` returned a truthy value. -/
def createLocationMethod (env : Env) (f : Facade)
    (locationMethodName : String) (value : String) : SetResult :=
  let r := commonHandle env f value
    (if locationMethodName = "assign" then HistoryMethod.pushState
     else HistoryMethod.replaceState)
  match r.returned with
  | some formattedValue =>
    if formattedValue ≠ "" then
      { facade := r.facade,
        events := r.events ++ [Event.rawLocationCall locationMethodName formattedValue] }
    else { facade := r.facade, events := r.events }
  | none => { facade := r.facade, events := r.events }

/-- The `href` setter (lines 100-103): `commonHandle` with `pushState`,
then a raw `location.href` write when a truthy value was returned. -/
def hrefSet (env : Env) (f : Facade) (value : String) : SetResult :=
  let r := commonHandle env f value HistoryMethod.pushState
  match r.returned with
  | some formattedValue =>
    if formattedValue ≠ "" then
      { facade := r.facade, events := r.events ++ [Event.rawHrefAssign formattedValue] }
    else { facade := r.facade, events := r.events }
  | none => { facade := r.facade, events := r.events }

/-- Drop the maximal leading run of the character `c`, as the regex body
`c+` anchored at the start consumes it. -/
def dropLeading (c : Char) : List Char → List Char
  | [] => []
  | x :: xs => if x = c then dropLeading c xs else x :: xs

/-- The effect of `s.replace(/^c+/, c)` on the character list of `s`: when
the list starts with `c`, the maximal leading run of `c` is replaced by a
single `c`; otherwise the list is unchanged. -/
def replaceLeadingRunAux (c : Char) : List Char → List Char
  | [] => []
  | x :: xs => if x = c then c :: dropLeading c xs else x :: xs

/-- `s.replace(/^c+/, c)` on strings. -/
def replaceLeadingRun (c : Char) (s : String) : String :=
  String.mk (replaceLeadingRunAux c s.data)

/-- The candidate path built by the `pathname` setter (line 110):
`('/' + value).replace(/^\/+/, '/') + shadowLocation.search + shadowLocation.hash`. -/
def pathnameTargetPath (f : Facade) (value : String) : String :=
  replaceLeadingRun '/' ("/" ++ value) ++ f.shadowLocation.search ++ f.shadowLocation.hash

/-- The candidate path built by the `search` setter (line 129):
`shadowLocation.pathname + ('?' + value).replace(/^\?+/, '?') + shadowLocation.hash`. -/
def searchTargetPath (f : Facade) (value : String) : String :=
  f.shadowLocation.pathname ++ replaceLeadingRun '?' ("?" ++ value) ++ f.shadowLocation.hash

/-- The candidate path built by the `hash` setter (line 148):
`shadowLocation.pathname + shadowLocation.search + ('#' + value).replace(/^#+/, '#')`. -/
def hashTargetPath (f : Facade) (value : String) : String :=
  f.shadowLocation.pathname ++ f.shadowLocation.search ++ replaceLeadingRun '#' ("#" ++ value)

/-- The `pathname` setter (lines 109-122). -/
def pathnameSet (env : Env) (f : Facade) (value : String) : SetResult :=
  let targetLocation := env.createURL (pathnameTargetPath f value)
  if targetLocation.pathname = f.shadowLocation.pathname ∧ f.shadowLocation.hash ≠ "" then
    { facade := f, events := [Event.dispatchPurePopStateEvent] }
  else
    let methodName :=
      if targetLocation.pathname = f.shadowLocation.pathname then HistoryMethod.replaceState
      else HistoryMethod.pushState
    { facade := f,
      events := [historyCall methodName (env.setMicroPathToURL targetLocation).fullPath,
                 Event.reload] }

/-- The `search` setter (lines 128-141). -/
def searchSet (env : Env) (f : Facade) (value : String) : SetResult :=
  let targetLocation := env.createURL (searchTargetPath f value)
  if targetLocation.search = f.shadowLocation.search ∧ f.shadowLocation.hash ≠ "" then
    { facade := f, events := [Event.dispatchPurePopStateEvent] }
  else
    let methodName :=
      if targetLocation.search = f.shadowLocation.search then HistoryMethod.replaceState
      else HistoryMethod.pushState
    { facade := f,
      events := [historyCall methodName (env.setMicroPathToURL targetLocation).fullPath,
                 Event.reload] }

/-- The `hash` setter (lines 147-155). -/
def hashSet (env : Env) (f : Facade) (value : String) : SetResult :=
  let targetLocation := env.createURL (hashTargetPath f value)
  if targetLocation.hash ≠ f.shadowLocation.hash then
    { facade := f,
      events := [Event.pushState (env.setMicroPathToURL targetLocation).fullPath,
                 Event.dispatchPurePopStateEvent] }
  else { facade := f, events := [] }

/-- Getter of `href`: reads the shadow record (line 99). -/
def hrefGet (f : Facade) : String := f.shadowLocation.href

/-- Getter of `pathname`: reads the shadow record (line 108). -/
def pathnameGet (f : Facade) : String := f.shadowLocation.pathname

/-- Getter of `search`: reads the shadow record (line 127). -/
def searchGet (f : Facade) : String := f.shadowLocation.search

/-- Getter of `hash`: reads the shadow record (line 146). -/
def hashGet (f : Facade) : String := f.shadowLocation.hash

/-- The key list `locationKeys` of line 163 (origin is readonly, so the
source ignores it). -/
def locationKeys : List String :=
  ["hash", "host", "hostname", "href", "password", "pathname", "port", "protocol", "search"]

/-- The key list `shadowLocationKeys` of line 164. -/
def shadowLocationKeys : List String := ["href", "pathname", "search", "hash"]

/-- One iteration of the `updateLocation` loop for a shadow-tracked key:
`microLocation.shadowLocation[key] = newLocation[key]`. -/
def writeShadowKey (s : ShadowLocation) (n : Loc) (key : String) : ShadowLocation :=
  if key = "href" then { s with href := n.href }
  else if key = "pathname" then { s with pathname := n.pathname }
  else if key = "search" then { s with search := n.search }
  else if key = "hash" then { s with hash := n.hash }
  else s

/-- One iteration of the `updateLocation` loop for a passthrough key:
`microLocation[key] = newLocation[key]`. -/
def writeFacadeKey (f : Facade) (n : Loc) (key : String) : Facade :=
  if key = "host" then { f with host := n.host }
  else if key = "hostname" then { f with hostname := n.hostname }
  else if key = "port" then { f with port := n.port }
  else if key = "protocol" then { f with protocol := n.protocol }
  else if key = "password" then { f with password := n.password }
  else f

/-- `updateLocation (path, base, microLocation)` (lines 174-189): resolves
`createURL (path, base)` and loops over `locationKeys`, routing each key
either into the shadow record or onto the facade. It performs no
navigation side effects, so the event trace is empty. -/
def updateLocation (createURL2 : String → String → Loc) (path : String)
    (base : String) (microLocation : Facade) : Facade × List Event :=
  let newLocation := createURL2 path base
  (locationKeys.foldl (fun f key =>
      if shadowLocationKeys.contains key then
        { f with shadowLocation := writeShadowKey f.shadowLocation newLocation key }
      else
        writeFacadeKey f newLocation key) microLocation,
   [])

/-- An event is a host history mutation. -/
def isHistoryCommit : Event → Bool
  | Event.pushState _ => true
  | Event.replaceState _ => true
  | _ => false

/-- An event is a reload or a synthetic route-change notification. -/
def isNavEffect : Event → Bool
  | Event.reload => true
  | Event.dispatchPurePopStateEvent => true
  | _ => false

/-- Every history commit in the trace occurs strictly before every reload
or synthetic-notification effect. -/
def commitsPrecedeEffects (tr : List Event) : Prop :=
  ∀ i j, (hi : i < tr.length) → (hj : j < tr.length) →
    isHistoryCommit (tr.get ⟨i, hi⟩) = true → isNavEffect (tr.get ⟨j, hj⟩) = true → i < j

theorem historyCall_not_navEffect (m : HistoryMethod) (p : String) :
    isNavEffect (historyCall m p) = false := by
  cases m <;> rfl

theorem historyCall_commit (m : HistoryMethod) (p : String) :
    isHistoryCommit (historyCall m p) = true := by
  cases m <;> rfl

theorem cpe_nil : commitsPrecedeEffects [] := by
  intro i j hi _ _ _
  simp at hi

theorem cpe_single (e : Event) (h : isHistoryCommit e = false) :
    commitsPrecedeEffects [e] := by
  intro i j hi hj hc _
  have hi0 : i = 0 := Nat.lt_one_iff.mp (by simpa using hi)
  subst hi0
  simp only [List.get] at hc
  exact absurd hc (by simp [h])

theorem cpe_pair (a b : Event) (ha : isNavEffect a = false)
    (hb : isHistoryCommit b = false) : commitsPrecedeEffects [a, b] := by
  intro i j hi hj hc he
  simp only [List.length_cons, List.length_nil] at hi hj
  interval_cases i <;> interval_cases j <;> simp_all [List.get]

theorem commonHandle_cases (env : Env) (f : Facade) (value : String)
    (m : HistoryMethod) :
    (∃ v, commonHandle env f value m =
        { facade := f, returned := some v, events := [] }) ∨
    (∃ e, isHistoryCommit e = false ∧
        commonHandle env f value m =
          { facade := f, returned := none, events := [e] }) ∨
    (∃ p e, isHistoryCommit e = false ∧ isNavEffect e = true ∧
        commonHandle env f value m =
          { facade := f, returned := none, events := [historyCall m p, e] }) := by
  simp only [commonHandle]
  split
  · split
    · split
      · split
        · exact Or.inr (Or.inr ⟨_, Event.dispatchPurePopStateEvent, rfl, rfl, rfl⟩)
        · exact Or.inr (Or.inr ⟨_, Event.reload, rfl, rfl, rfl⟩)
      · split
        · exact Or.inr (Or.inl ⟨Event.dispatchPurePopStateEvent, rfl, rfl⟩)
        · exact Or.inr (Or.inl ⟨Event.reload, rfl, rfl⟩)
    · split
      · exact Or.inr (Or.inr ⟨_, Event.reload, rfl, rfl, rfl⟩)
      · exact Or.inl ⟨_, rfl⟩
  · exact Or.inl ⟨_, rfl⟩

theorem cpe_commonHandle (env : Env) (f : Facade) (value : String)
    (m : HistoryMethod) : commitsPrecedeEffects (commonHandle env f value m).events := by
  rcases commonHandle_cases env f value m with ⟨v, hv⟩ | ⟨e, h1, hv⟩ | ⟨p, e, h1, h2, hv⟩
  · rw [hv]; exact cpe_nil
  · rw [hv]; exact cpe_single e h1
  · rw [hv]; exact cpe_pair (historyCall m p) e (historyCall_not_navEffect m p) h1

theorem cpe_createLocationMethod (env : Env) (f : Facade) (n value : String) :
    commitsPrecedeEffects (createLocationMethod env f n value).events := by
  unfold createLocationMethod
  rcases commonHandle_cases env f value
      (if n = "assign" then HistoryMethod.pushState else HistoryMethod.replaceState) with
    ⟨v, hv⟩ | ⟨e, h1, hv⟩ | ⟨p, e, h1, h2, hv⟩
  · rw [hv]
    by_cases h : v = ""
    · simp [h]; exact cpe_nil
    · simp [h]; exact cpe_single _ rfl
  · rw [hv]; exact cpe_single e h1
  · rw [hv]
    exact cpe_pair (historyCall _ p) e (historyCall_not_navEffect _ p) h1

theorem cpe_hrefSet (env : Env) (f : Facade) (value : String) :
    commitsPrecedeEffects (hrefSet env f value).events := by
  unfold hrefSet
  rcases commonHandle_cases env f value HistoryMethod.pushState with
    ⟨v, hv⟩ | ⟨e, h1, hv⟩ | ⟨p, e, h1, h2, hv⟩
  · rw [hv]
    by_cases h : v = ""
    · simp [h]; exact cpe_nil
    · simp [h]; exact cpe_single _ rfl
  · rw [hv]; exact cpe_single e h1
  · rw [hv]
    exact cpe_pair (historyCall _ p) e (historyCall_not_navEffect _ p) h1

theorem cpe_pathnameSet (env : Env) (f : Facade) (value : String) :
    commitsPrecedeEffects (pathnameSet env f value).events := by
  simp only [pathnameSet]
  split
  · exact cpe_single _ rfl
  · exact cpe_pair (historyCall _ _) Event.reload (historyCall_not_navEffect _ _) rfl

theorem cpe_searchSet (env : Env) (f : Facade) (value : String) :
    commitsPrecedeEffects (searchSet env f value).events := by
  simp only [searchSet]
  split
  · exact cpe_single _ rfl
  · exact cpe_pair (historyCall _ _) Event.reload (historyCall_not_navEffect _ _) rfl

theorem cpe_hashSet (env : Env) (f : Facade) (value : String) :
    commitsPrecedeEffects (hashSet env f value).events := by
  simp only [hashSet]
  split
  · exact cpe_pair (Event.pushState _) Event.dispatchPurePopStateEvent rfl rfl
  · exact cpe_nil

/-- Sample shadow record: believed location `https://app.example/x`. -/
def sampleShadow : ShadowLocation :=
  { href := "https://app.example/x", pathname := "/x", search := "", hash := "" }

/-- Sample facade over `sampleShadow`. -/
def sampleFacade : Facade :=
  { shadowLocation := sampleShadow, host := "app.example", hostname := "app.example",
    port := "", protocol := "https:", password := "", origin := "https://app.example" }

/-- Sample facade whose shadow currently carries the hash `#y`. -/
def facadeWithHash : Facade :=
  { sampleFacade with
    shadowLocation :=
      { sampleShadow with hash := "#y", href := "https://app.example/x#y" } }

/-- Build a resolved location from its four navigable components. -/
def mkLoc (origin pathname search hash : String) : Loc :=
  { origin := origin, pathname := pathname, search := search, hash := hash,
    href := origin ++ pathname ++ search ++ hash, host := "app.example",
    hostname := "app.example", port := "", protocol := "https:", password := "" }

/-- A resolved target on a foreign origin. -/
def crossLoc : Loc := mkLoc "https://other.example" "/p" "" ""

/-- A same-origin resolved target that only adds the hash `#y`. -/
def hashLoc : Loc := mkLoc "https://app.example" "/x" "" "#y"

/-- A same-origin resolved target with the same pathname and no hash. -/
def clearLoc : Loc := mkLoc "https://app.example" "/x" "" ""

/-- A same-origin resolved target with a different pathname. -/
def pathLoc : Loc := mkLoc "https://app.example" "/z" "" ""

/-- A codec result for a host in normal path-routing mode. -/
def sampleResult : MicroPathResult := { fullPath := "/host/x", attach2Hash := false }

/-- A codec result for a host in hash-routing mode. -/
def hashModeResult : MicroPathResult := { fullPath := "/host#/x", attach2Hash := true }

/-- An environment whose resolution and codec are constant functions. -/
def constEnv (t : Loc) (r : MicroPathResult) : Env :=
  { createURL := fun _ => t, setMicroPathToURL := fun _ => r }

/-- C1: when the resolved origin differs from the app origin, `commonHandle`
returns the value unchanged with an empty side-effect trace (no history
mutation, no reload, no synthetic notification), and the `assign`/`replace`
methods and the `href` setter then perform only the raw navigation with
that unchanged value. -/
theorem commonHandle_cross_origin_passthrough (env : Env) (f : Facade)
    (value : String) (m : HistoryMethod) (n : String)
    (ho : (env.createURL value).origin ≠ f.origin) (hv : value ≠ "") :
    commonHandle env f value m =
      { facade := f, returned := some value, events := [] } ∧
    createLocationMethod env f n value =
      { facade := f, events := [Event.rawLocationCall n value] } ∧
    hrefSet env f value =
      { facade := f, events := [Event.rawHrefAssign value] } := by
  have h : ∀ m' : HistoryMethod, commonHandle env f value m' =
      { facade := f, returned := some value, events := [] } := by
    intro m'
    simp only [commonHandle]
    rw [if_neg ho]
  refine ⟨h m, ?_, ?_⟩
  · simp only [createLocationMethod, h]
    simp [hv]
  · simp only [hrefSet, h]
    simp [hv]

/-- C1 witness: a concrete cross-origin target flows through unchanged. -/
theorem commonHandle_cross_origin_passthrough_witness :
    commonHandle (constEnv crossLoc sampleResult) sampleFacade
        "https://other.example/p" HistoryMethod.pushState =
      { facade := sampleFacade, returned := some "https://other.example/p",
        events := [] } :=
  (commonHandle_cross_origin_passthrough (constEnv crossLoc sampleResult)
    sampleFacade "https://other.example/p" HistoryMethod.pushState "assign"
    (by decide) (by decide)).1

/-- C2: for a same-origin target whose pathname and search match the shadow
and whose hash is non-empty and differs from the shadow hash, `commonHandle`
commits the encoded fullPath once with the requested history method, fires
one synthetic notification, never reloads, and returns the handled sentinel;
`assign` commits with `pushState`, `replace` with `replaceState`, and the
`href` setter with `pushState`, none performing any further navigation. -/
theorem commonHandle_pure_hash_navigation (env : Env) (f : Facade) (value : String)
    (ho : (env.createURL value).origin = f.origin)
    (hp : (env.createURL value).pathname = f.shadowLocation.pathname)
    (hs : (env.createURL value).search = f.shadowLocation.search)
    (hne : (env.createURL value).hash ≠ "")
    (hd : (env.createURL value).hash ≠ f.shadowLocation.hash) :
    (∀ m, commonHandle env f value m =
      { facade := f, returned := none,
        events := [historyCall m (env.setMicroPathToURL (env.createURL value)).fullPath,
                   Event.dispatchPurePopStateEvent] }) ∧
    createLocationMethod env f "assign" value =
      { facade := f,
        events := [Event.pushState (env.setMicroPathToURL (env.createURL value)).fullPath,
                   Event.dispatchPurePopStateEvent] } ∧
    createLocationMethod env f "replace" value =
      { facade := f,
        events := [Event.replaceState (env.setMicroPathToURL (env.createURL value)).fullPath,
                   Event.dispatchPurePopStateEvent] } ∧
    hrefSet env f value =
      { facade := f,
        events := [Event.pushState (env.setMicroPathToURL (env.createURL value)).fullPath,
                   Event.dispatchPurePopStateEvent] } := by
  have h : ∀ m' : HistoryMethod, commonHandle env f value m' =
      { facade := f, returned := none,
        events := [historyCall m' (env.setMicroPathToURL (env.createURL value)).fullPath,
                   Event.dispatchPurePopStateEvent] } := by
    intro m'
    simp only [commonHandle]
    rw [if_pos ho, if_pos ⟨hp, hs⟩, if_pos hd, if_pos hne]
    rfl
  refine ⟨h, ?_, ?_, ?_⟩
  · simp only [createLocationMethod, h]
    rfl
  · simp only [createLocationMethod, h]
    rfl
  · simp only [hrefSet, h]
    rfl

/-- C2 witness: setting `#y` from a hashless shadow pushes once and
notifies once, through the `assign`-built method. -/
theorem commonHandle_pure_hash_navigation_witness :
    createLocationMethod (constEnv hashLoc sampleResult) sampleFacade "assign" "#y" =
      { facade := sampleFacade,
        events := [Event.pushState "/host/x", Event.dispatchPurePopStateEvent] } :=
  ((commonHandle_pure_hash_navigation (constEnv hashLoc sampleResult) sampleFacade "#y"
    (by decide) (by decide) (by decide) (by decide) (by decide)).2.1).trans (by decide)

/-- C3: for a same-origin target whose pathname and search match the shadow
and whose hash is empty while the shadow hash was non-empty, `commonHandle`
first commits the encoded fullPath with the requested method, then reloads
exactly once, fires no synthetic notification, and returns the handled
sentinel. -/
theorem commonHandle_hash_cleared_reload (env : Env) (f : Facade) (value : String)
    (m : HistoryMethod)
    (ho : (env.createURL value).origin = f.origin)
    (hp : (env.createURL value).pathname = f.shadowLocation.pathname)
    (hs : (env.createURL value).search = f.shadowLocation.search)
    (hhe : (env.createURL value).hash = "")
    (hsh : f.shadowLocation.hash ≠ "") :
    commonHandle env f value m =
      { facade := f, returned := none,
        events := [historyCall m (env.setMicroPathToURL (env.createURL value)).fullPath,
                   Event.reload] } := by
  simp only [commonHandle]
  rw [if_pos ho, if_pos ⟨hp, hs⟩, if_pos (by rw [hhe]; exact Ne.symm hsh),
    if_neg (by simp [hhe])]
  rfl

/-- C3 witness: clearing the hash `#y` commits then reloads. -/
theorem commonHandle_hash_cleared_reload_witness :
    commonHandle (constEnv clearLoc sampleResult) facadeWithHash "/x"
        HistoryMethod.pushState =
      { facade := facadeWithHash, returned := none,
        events := [Event.pushState "/host/x", Event.reload] } :=
  (commonHandle_hash_cleared_reload (constEnv clearLoc sampleResult) facadeWithHash "/x"
    HistoryMethod.pushState (by decide) (by decide) (by decide) (by decide)
    (by decide)).trans (by decide)

/-- C4: for a same-origin target whose pathname or search differs from the
shadow, `commonHandle` commits the encoded fullPath with the requested
method and then reloads when the codec reports `attach2Hash`, returning the
handled sentinel; otherwise it returns the encoded fullPath with an empty
side-effect trace. -/
theorem commonHandle_path_search_change (env : Env) (f : Facade) (value : String)
    (m : HistoryMethod)
    (ho : (env.createURL value).origin = f.origin)
    (hd : (env.createURL value).pathname ≠ f.shadowLocation.pathname ∨
          (env.createURL value).search ≠ f.shadowLocation.search) :
    commonHandle env f value m =
      if (env.setMicroPathToURL (env.createURL value)).attach2Hash then
        { facade := f, returned := none,
          events := [historyCall m (env.setMicroPathToURL (env.createURL value)).fullPath,
                     Event.reload] }
      else
        { facade := f,
          returned := some (env.setMicroPathToURL (env.createURL value)).fullPath,
          events := [] } := by
  simp only [commonHandle]
  rw [if_pos ho, if_neg (fun hc => hd.elim (fun h1 => h1 hc.1) (fun h2 => h2 hc.2))]

/-- C4 witness: a pathname change is returned as the encoded fullPath in
path-routing mode, and is committed then reloaded in hash-routing mode. -/
theorem commonHandle_path_search_change_witness :
    commonHandle (constEnv pathLoc sampleResult) sampleFacade "/z"
        HistoryMethod.pushState =
      { facade := sampleFacade, returned := some "/host/x", events := [] } ∧
    commonHandle (constEnv pathLoc hashModeResult) sampleFacade "/z"
        HistoryMethod.replaceState =
      { facade := sampleFacade, returned := none,
        events := [Event.replaceState "/host#/x", Event.reload] } :=
  ⟨(commonHandle_path_search_change (constEnv pathLoc sampleResult) sampleFacade "/z"
      HistoryMethod.pushState (by decide) (Or.inl (by decide))).trans (by decide),
   (commonHandle_path_search_change (constEnv pathLoc hashModeResult) sampleFacade "/z"
      HistoryMethod.replaceState (by decide) (Or.inl (by decide))).trans (by decide)⟩

/-- C5: in every execution of the reconciliation handler, of the
`assign`/`replace` methods, and of the `href`/`pathname`/`search`/`hash`
setters, every history commit occurs strictly before every reload or
synthetic-notification side effect in the trace. -/
theorem engine_commit_precedes_effects (env : Env) (f : Facade) (value n : String)
    (m : HistoryMethod) :
    commitsPrecedeEffects (commonHandle env f value m).events ∧
    commitsPrecedeEffects (createLocationMethod env f n value).events ∧
    commitsPrecedeEffects (hrefSet env f value).events ∧
    commitsPrecedeEffects (pathnameSet env f value).events ∧
    commitsPrecedeEffects (searchSet env f value).events ∧
    commitsPrecedeEffects (hashSet env f value).events :=
  ⟨cpe_commonHandle env f value m, cpe_createLocationMethod env f n value,
   cpe_hrefSet env f value, cpe_pathnameSet env f value, cpe_searchSet env f value,
   cpe_hashSet env f value⟩

/-- C6 witness environment: resolves the two candidate paths that the hash
setter can build over `sampleFacade`. -/
def tableEnvC6 : Env :=
  { createURL := fun s => if s = "/x#y" then hashLoc else clearLoc,
    setMicroPathToURL := fun _ => sampleResult }

/-- C7 witness environment: resolves the candidate paths that the pathname
setter can build over `sampleFacade` and `facadeWithHash`. -/
def tableEnvC7 : Env :=
  { createURL := fun s =>
      if s = "/x#y" then hashLoc else if s = "/z" then pathLoc else clearLoc,
    setMicroPathToURL := fun _ => sampleResult }

/-- C6: the hash setter builds its candidate from the shadow pathname and
search plus the normalized new hash; a resolved hash differing from the
shadow hash commits the encoded path once via `pushState` and fires one
synthetic notification with no reload, while an unchanged resolved hash
performs nothing. -/
theorem hashSet_spec (env : Env) (f : Facade) (value : String) :
    hashTargetPath f value =
      f.shadowLocation.pathname ++ f.shadowLocation.search ++
        replaceLeadingRun '#' ("#" ++ value) ∧
    ((env.createURL (hashTargetPath f value)).hash ≠ f.shadowLocation.hash →
      hashSet env f value =
        { facade := f,
          events := [Event.pushState
              (env.setMicroPathToURL (env.createURL (hashTargetPath f value))).fullPath,
            Event.dispatchPurePopStateEvent] }) ∧
    ((env.createURL (hashTargetPath f value)).hash = f.shadowLocation.hash →
      hashSet env f value = { facade := f, events := [] }) := by
  refine ⟨rfl, ?_, ?_⟩
  · intro h
    simp only [hashSet]
    rw [if_pos h]
  · intro h
    simp only [hashSet]
    rw [if_neg (by simp [h])]

/-- C6 witness: over a hashless shadow of `/x`, writing `y` pushes the
encoded path and notifies once; writing the unchanged empty hash is a
no-op. -/
theorem hashSet_spec_witness :
    hashSet tableEnvC6 sampleFacade "y" =
      { facade := sampleFacade,
        events := [Event.pushState "/host/x", Event.dispatchPurePopStateEvent] } ∧
    hashSet tableEnvC6 sampleFacade "" = { facade := sampleFacade, events := [] } :=
  ⟨((hashSet_spec tableEnvC6 sampleFacade "y").2.1 (by decide)).trans (by decide),
   (hashSet_spec tableEnvC6 sampleFacade "").2.2 (by decide)⟩

/-- C7: when the resolved pathname equals the shadow pathname and the
shadow hash is non-empty, the pathname setter fires one synthetic
notification with no history mutation and no reload; otherwise it commits
the encoded full path via `replaceState` when the resolved pathname is
unchanged and `pushState` when it differs, then reloads. -/
theorem pathnameSet_spec (env : Env) (f : Facade) (value : String) :
    ((env.createURL (pathnameTargetPath f value)).pathname = f.shadowLocation.pathname →
      f.shadowLocation.hash ≠ "" →
      pathnameSet env f value =
        { facade := f, events := [Event.dispatchPurePopStateEvent] }) ∧
    ((env.createURL (pathnameTargetPath f value)).pathname = f.shadowLocation.pathname →
      f.shadowLocation.hash = "" →
      pathnameSet env f value =
        { facade := f,
          events := [Event.replaceState
              (env.setMicroPathToURL (env.createURL (pathnameTargetPath f value))).fullPath,
            Event.reload] }) ∧
    ((env.createURL (pathnameTargetPath f value)).pathname ≠ f.shadowLocation.pathname →
      pathnameSet env f value =
        { facade := f,
          events := [Event.pushState
              (env.setMicroPathToURL (env.createURL (pathnameTargetPath f value))).fullPath,
            Event.reload] }) := by
  refine ⟨?_, ?_, ?_⟩
  · intro h1 h2
    simp only [pathnameSet]
    rw [if_pos ⟨h1, h2⟩]
  · intro h1 h2
    simp only [pathnameSet]
    rw [if_neg (by simp [h2]), if_pos h1]
    rfl
  · intro h1
    simp only [pathnameSet]
    rw [if_neg (by simp [h1]), if_neg h1]
    rfl

/-- C7 witness: re-setting `/x` with hash `#y` only notifies; re-setting
`/x` with no hash replace-commits then reloads; setting `/z` push-commits
then reloads. -/
theorem pathnameSet_spec_witness :
    pathnameSet tableEnvC7 facadeWithHash "x" =
      { facade := facadeWithHash, events := [Event.dispatchPurePopStateEvent] } ∧
    pathnameSet tableEnvC7 sampleFacade "x" =
      { facade := sampleFacade,
        events := [Event.replaceState "/host/x", Event.reload] } ∧
    pathnameSet tableEnvC7 sampleFacade "z" =
      { facade := sampleFacade,
        events := [Event.pushState "/host/x", Event.reload] } :=
  ⟨(pathnameSet_spec tableEnvC7 facadeWithHash "x").1 (by decide) (by decide),
   ((pathnameSet_spec tableEnvC7 sampleFacade "x").2.1 (by decide) (by decide)).trans
     (by decide),
   ((pathnameSet_spec tableEnvC7 sampleFacade "z").2.2 (by decide)).trans (by decide)⟩

theorem dropLeading_cons_self (c : Char) (l : List Char) :
    dropLeading c (c :: l) = dropLeading c l := by
  simp [dropLeading]

theorem replaceLeadingRunAux_cons_self (c : Char) (l : List Char) :
    replaceLeadingRunAux c (c :: l) = c :: dropLeading c l := by
  simp [replaceLeadingRunAux]

theorem replaceLeadingRun_prepend_eq (c : Char) (pre v : String)
    (hp : pre.data = [c]) :
    replaceLeadingRun c (pre ++ v) = String.mk (c :: dropLeading c v.data) := by
  simp [replaceLeadingRun, String.data_append, hp, replaceLeadingRunAux_cons_self]

theorem replaceLeadingRun_prepend_self (c : Char) (pre v : String)
    (hp : pre.data = [c]) :
    replaceLeadingRun c (pre ++ (pre ++ v)) = replaceLeadingRun c (pre ++ v) := by
  simp [replaceLeadingRun, String.data_append, hp, replaceLeadingRunAux_cons_self,
    dropLeading_cons_self]

/-- C8: the three setters normalize leading punctuation idempotently: the
normalized component carries exactly one leading `/`, `?`, `#`
respectively, and prepending one more leading mark to the written value
leaves the normalized component and the whole setter behavior unchanged,
so any number of leading marks, including zero, collapses to exactly one. -/
theorem setter_normalization_idempotent (env : Env) (f : Facade) (v : String) :
    replaceLeadingRun '/' ("/" ++ v) = String.mk ('/' :: dropLeading '/' v.data) ∧
    replaceLeadingRun '?' ("?" ++ v) = String.mk ('?' :: dropLeading '?' v.data) ∧
    replaceLeadingRun '#' ("#" ++ v) = String.mk ('#' :: dropLeading '#' v.data) ∧
    pathnameSet env f ("/" ++ v) = pathnameSet env f v ∧
    searchSet env f ("?" ++ v) = searchSet env f v ∧
    hashSet env f ("#" ++ v) = hashSet env f v := by
  have hs : ("/" : String).data = ['/'] := rfl
  have hq : ("?" : String).data = ['?'] := rfl
  have hh : ("#" : String).data = ['#'] := rfl
  refine ⟨replaceLeadingRun_prepend_eq '/' "/" v hs,
    replaceLeadingRun_prepend_eq '?' "?" v hq,
    replaceLeadingRun_prepend_eq '#' "#" v hh, ?_, ?_, ?_⟩
  · simp only [pathnameSet, pathnameTargetPath,
      replaceLeadingRun_prepend_self '/' "/" v hs]
  · simp only [searchSet, searchTargetPath,
      replaceLeadingRun_prepend_self '?' "?" v hq]
  · simp only [hashSet, hashTargetPath,
      replaceLeadingRun_prepend_self '#' "#" v hh]

/-- C9: `updateLocation` resolves a URL from the path and base and writes
exactly nine fields: `href`, `pathname`, `search`, `hash` go directly into
the shadow record, `host`, `hostname`, `port`, `protocol`, `password` go
directly onto the facade, `origin` is never written, and no navigation side
effect is performed. -/
theorem updateLocation_spec (createURL2 : String → String → Loc)
    (path base : String) (f : Facade) :
    updateLocation createURL2 path base f =
      ({ shadowLocation :=
           { href := (createURL2 path base).href,
             pathname := (createURL2 path base).pathname,
             search := (createURL2 path base).search,
             hash := (createURL2 path base).hash },
         host := (createURL2 path base).host,
         hostname := (createURL2 path base).hostname,
         port := (createURL2 path base).port,
         protocol := (createURL2 path base).protocol,
         password := (createURL2 path base).password,
         origin := f.origin }, []) := rfl

/-- C10: no execution of the reconciliation handler or of the
`assign`/`replace` methods or of the `href`/`pathname`/`search`/`hash`
setters changes the facade or its shadow record, so immediately after any
navigation write every getter still returns the pre-navigation shadow
value. -/
theorem navigation_preserves_shadow (env : Env) (f : Facade) (value n : String)
    (m : HistoryMethod) :
    (commonHandle env f value m).facade = f ∧
    (createLocationMethod env f n value).facade = f ∧
    (hrefSet env f value).facade = f ∧
    (pathnameSet env f value).facade = f ∧
    (searchSet env f value).facade = f ∧
    (hashSet env f value).facade = f ∧
    hrefGet (hrefSet env f value).facade = hrefGet f ∧
    pathnameGet (pathnameSet env f value).facade = pathnameGet f ∧
    searchGet (searchSet env f value).facade = searchGet f ∧
    hashGet (hashSet env f value).facade = hashGet f := by
  have hc : ∀ m' : HistoryMethod, (commonHandle env f value m').facade = f := by
    intro m'
    simp only [commonHandle]
    repeat' split
    all_goals rfl
  have h2 : (createLocationMethod env f n value).facade = f := by
    simp only [createLocationMethod]
    split
    · split
      · exact hc _
      · exact hc _
    · exact hc _
  have h3 : (hrefSet env f value).facade = f := by
    simp only [hrefSet]
    split
    · split
      · exact hc _
      · exact hc _
    · exact hc _
  have h4 : (pathnameSet env f value).facade = f := by
    simp only [pathnameSet]
    split
    · rfl
    · rfl
  have h5 : (searchSet env f value).facade = f := by
    simp only [searchSet]
    split
    · rfl
    · rfl
  have h6 : (hashSet env f value).facade = f := by
    simp only [hashSet]
    split
    · rfl
    · rfl
  refine ⟨hc m, h2, h3, h4, h5, h6, ?_, ?_, ?_, ?_⟩
  · rw [h3]
  · rw [h4]
  · rw [h5]
  · rw [h6]
